import Mathlib

/-!
Shallow embedding of the ECS-Maze-Runner sources (`src/direction.py`,
`src/maze.py`, `src/runner.py`, `src/maze_runner.py`) and proofs about them.

Conventions of the embedding:
* Python machine integers are modelled as `Int` (coordinates may go negative).
* A maze is the source's `list[list[list[bool]]]`: a list of columns indexed
  `maze[x][y]`, each cell holding the four wall flags `[N, E, S, W]` that the
  Python code indexes with `int(Direction)` (NORTH→0, EAST→1, SOUTH→2, WEST→3).
* Fallible code (Python `raise`) returns `Except Err _`.
* The unbounded `while` loop of `explore` and the link-walking loop of
  `_optimise_path` are given explicit fuel; exhausting the fuel returns the
  distinguished `Err.outOfFuel`, which models the Python loop still running.
-/

namespace ECSMazeRunner

/-- Error conditions raised by the Python sources (`TypeError`, `ValueError`,
`IndexError`, `AttributeError`), split by the site that raises them, plus
`outOfFuel` for the fuel model of unbounded loops. -/
inductive Err
  | invalidArgument
  | invalidMaze
  | outOfBounds
  | invalidGoal
  | indexError
  | attributeError
  | outOfFuel
deriving DecidableEq, Repr

/-- `Direction` enum from `src/direction.py`. -/
inductive Direction
  | NORTH
  | EAST
  | SOUTH
  | WEST
deriving DecidableEq, Repr

namespace Direction

/-- `Direction.turn_right`: 90 degrees clockwise
(order `[NORTH, EAST, SOUTH, WEST]`, index + 1 mod 4). -/
def turn_right : Direction → Direction
  | NORTH => EAST
  | EAST => SOUTH
  | SOUTH => WEST
  | WEST => NORTH

/-- `Direction.turn_left`: 90 degrees anti-clockwise
(order `[NORTH, WEST, SOUTH, EAST]`, index + 1 mod 4). -/
def turn_left : Direction → Direction
  | NORTH => WEST
  | WEST => SOUTH
  | SOUTH => EAST
  | EAST => NORTH

end Direction

/-- `Turn` enum from `src/turn.py`. -/
inductive Turn
  | LEFT
  | RIGHT
deriving DecidableEq, Repr

/-- One maze cell: the Python 4-element list `[north, east, south, west]` of
wall flags (`True` = wall present). -/
structure Cell where
  north : Bool
  east : Bool
  south : Bool
  west : Bool
deriving DecidableEq, Repr

/-- `cell[int(direction)]`: indexing a cell's wall list by a direction cast to
an integer (NORTH→0, EAST→1, SOUTH→2, WEST→3). -/
def Cell.get : Cell → Direction → Bool
  | c, .NORTH => c.north
  | c, .EAST => c.east
  | c, .SOUTH => c.south
  | c, .WEST => c.west

/-- The maze representation `list[list[list[bool]]]`, columns indexed by `x`,
cells within a column indexed by `y`. -/
abbrev Maze := List (List Cell)

/-- One entry `(x, y, action)` of a trace or path. -/
abbrev Step := Int × Int × String

/-- `maze.get_dimensions`: `(len(maze), len(maze[0]))` after checking the maze
is non-jagged.  An empty maze hits `maze[0]` (`IndexError`); a jagged maze
raises `ValueError`. -/
def get_dimensions (maze : Maze) : Except Err (Nat × Nat) :=
  match maze with
  | [] => .error .indexError
  | col :: _ =>
    if maze.all (fun c => c.length = col.length) then
      .ok (maze.length, col.length)
    else
      .error .invalidMaze

/-- `maze.get_walls`: validate `x ≥ 0`, `y ≥ 0`, then the dimensions, then the
upper bounds, and return the cell `maze[x][y]`. -/
def get_walls (maze : Maze) (x y : Int) : Except Err Cell :=
  if x < 0 ∨ y < 0 then .error .outOfBounds
  else do
    let (width, height) ← get_dimensions maze
    if x ≥ (width : Int) ∨ y ≥ (height : Int) then .error .outOfBounds
    else
      match (maze.get? x.toNat).bind (fun col => col.get? y.toNat) with
      | some c => .ok c
      | none => .error .outOfBounds

/-- The runner dictionary `{"x": _, "y": _, "orientation": _}` from
`src/runner.py`. -/
structure Runner where
  x : Int
  y : Int
  orientation : Direction
deriving DecidableEq, Repr

/-- `runner.create_runner` (the dynamic type checks of the Python version are
subsumed by the Lean types). -/
def create_runner (x y : Int) (orientation : Direction) : Runner :=
  ⟨x, y, orientation⟩

/-- `runner.turn`: rotate the orientation, keep the position. -/
def turn (r : Runner) (direction : Turn) : Runner :=
  match direction with
  | .RIGHT => { r with orientation := r.orientation.turn_right }
  | .LEFT => { r with orientation := r.orientation.turn_left }

/-- `runner.forward`: translate the position one cell along the current
orientation (NORTH: y+1, EAST: x+1, SOUTH: y-1, WEST: x-1). -/
def forward (r : Runner) : Runner :=
  match r.orientation with
  | .NORTH => { r with y := r.y + 1 }
  | .EAST => { r with x := r.x + 1 }
  | .SOUTH => { r with y := r.y - 1 }
  | .WEST => { r with x := r.x - 1 }

/-- `runner.backward`: translate the position one cell against the current
orientation. -/
def backward (r : Runner) : Runner :=
  match r.orientation with
  | .NORTH => { r with y := r.y - 1 }
  | .EAST => { r with x := r.x - 1 }
  | .SOUTH => { r with y := r.y + 1 }
  | .WEST => { r with x := r.x + 1 }

/-- `runner.sense_walls`: look up the cell at the runner's position and return
its flags in the order (left, straight, right) relative to the orientation. -/
def sense_walls (r : Runner) (maze : Maze) : Except Err (Bool × Bool × Bool) := do
  let cell ← get_walls maze r.x r.y
  let left_direction := r.orientation.turn_left
  let right_direction := r.orientation.turn_right
  .ok (cell.get left_direction, cell.get r.orientation, cell.get right_direction)

/-- `runner.move`: one step of the wall-following rule.  The three sensed flags
are tested in the fixed order left, forward, right (`Wall.LEFT = 0`,
`Wall.FORWARD = 1`, `Wall.RIGHT = 2` index the sensed triple). -/
def move (r : Runner) (maze : Maze) : Except Err (Runner × String) := do
  let walls ← sense_walls r maze
  if !walls.1 then
    .ok (forward (turn r .LEFT), "LF")
  else if !walls.2.1 then
    .ok (forward r, "F")
  else if !walls.2.2 then
    .ok (forward (turn r .RIGHT), "RF")
  else
    .ok (backward r, "B")

/-- `runner.in_goal`. -/
def in_goal (r : Runner) (goal_x goal_y : Int) : Bool :=
  r.x == goal_x && r.y == goal_y

/-- The `while not in_goal` loop of `runner.explore`, with explicit fuel.
Each iteration appends `(new_x, new_y, action)` for the position reached. -/
def explore_loop (maze : Maze) (gx gy : Int) : Nat → Runner → Except Err (List Step)
  | 0, r => if in_goal r gx gy then .ok [] else .error .outOfFuel
  | fuel + 1, r =>
    if in_goal r gx gy then .ok []
    else do
      let (r2, action) ← move r maze
      let rest ← explore_loop maze gx gy fuel r2
      .ok ((r2.x, r2.y, action) :: rest)

/-- `runner.explore`: read the dimensions, resolve the goal (defaulting to the
top-right corner `(width-1, height-1)`, rejecting an out-of-range explicit
goal), then run the movement loop. -/
def explore (fuel : Nat) (r : Runner) (maze : Maze)
    (goal : Option (Int × Int)) : Except Err (List Step) := do
  let (width, height) ← get_dimensions maze
  let (gx, gy) ←
    match goal with
    | none => Except.ok ((width : Int) - 1, (height : Int) - 1)
    | some (gx, gy) =>
      if gx ≥ (width : Int) ∨ gy ≥ (height : Int) ∨ gx < 0 ∨ gy < 0 then
        Except.error Err.invalidGoal
      else
        Except.ok (gx, gy)
  explore_loop maze gx gy fuel r

/-- The linked list built by `maze_runner.link_list`: every entry paired with
the index of its successor (`index + 1`), the last entry's link overwritten
with the terminal `-1`. -/
def linked_entries (l : List Step) : List (Step × Int) :=
  l.enum.map (fun p =>
    (p.2, if p.1 = l.length - 1 then (-1 : Int) else (p.1 : Int) + 1))

/-- `maze_runner.link_list`.  On an empty list the Python
`linked_list[-1] = ...` assignment raises `IndexError`. -/
def link_list (l : List Step) : Except Err (List (Step × Int)) :=
  match l with
  | [] => .error .indexError
  | _ :: _ => .ok (linked_entries l)

/-- `linked_path[j][1] = v`: overwrite the link of entry `j`, keeping its
payload (a no-op when `j` is out of range, which the callers never hit). -/
def set_link (lp : List (Step × Int)) (j : Nat) (v : Int) : List (Step × Int) :=
  match lp.get? j with
  | some (s, _) => lp.set j (s, v)
  | none => lp

/-- Lookup in the `seen_positions` dictionary, modelled as an association list
whose most recent binding shadows older ones. -/
def seen_lookup (seen : List ((Int × Int) × Nat)) (p : Int × Int) : Option Nat :=
  match seen with
  | [] => none
  | (q, j) :: rest => if q = p then some j else seen_lookup rest p

/-- The first loop of `maze_runner._optimise_path`: scan the entries in index
order; an entry whose link is `-1` is skipped; otherwise, if its position was
seen before at index `j`, rewrite entry `j`'s link to this entry's link, and
in both cases record this entry's index as the most recent occurrence of the
position.  The entry at index `i` is read from the current (partially
rewritten) list, exactly as the Python iterator does. -/
def splice (lp : List (Step × Int)) (seen : List ((Int × Int) × Nat)) :
    List Nat → List (Step × Int)
  | [] => lp
  | i :: rest =>
    match lp.get? i with
    | none => splice lp seen rest
    | some ((pos_x, pos_y, _), next_index) =>
      if next_index = -1 then splice lp seen rest
      else
        match seen_lookup seen (pos_x, pos_y) with
        | some j =>
          splice (set_link lp j next_index) (((pos_x, pos_y), i) :: seen) rest
        | none => splice lp (((pos_x, pos_y), i) :: seen) rest

/-- The second loop of `maze_runner._optimise_path`: walk the links from index
0, collecting `(x, y, "")` until the terminal link `-1` (the only negative
link the callers produce) is reached.  The fuel bounds the walk; the caller
passes enough fuel for every link chain the first loop can produce. -/
def walk (lp : List (Step × Int)) : Nat → Int → List Step
  | 0, _ => []
  | fuel + 1, idx =>
    if idx < 0 then []
    else
      match lp.get? idx.toNat with
      | none => []
      | some ((pos_x, pos_y, _), next_index) =>
        (pos_x, pos_y, "") :: walk lp fuel next_index

/-- `maze_runner._optimise_path`: splice out revisited positions, then walk the
rewritten links from index 0. -/
def optimise_path (lp : List (Step × Int)) : List Step :=
  walk (splice lp [] (List.range lp.length)) (lp.length + 1) 0

/-- The Path Compactor stage used by `shortest_path`:
`_optimise_path(link_list(path))`. -/
def compact_trace (t : List Step) : Except Err (List Step) :=
  (link_list t).map optimise_path

/-- The `movement_direction` computation inside
`maze_runner._construct_sequences`: Python leaves it `None` when the two
positions coincide. -/
def movement_direction (pos_x pos_y next_x next_y : Int) : Option Direction :=
  if next_x > pos_x then some .EAST
  else if next_x < pos_x then some .WEST
  else if next_y > pos_y then some .NORTH
  else if next_y < pos_y then some .SOUTH
  else none

/-- The labelling loop of `maze_runner._construct_sequences` over consecutive
pairs, threading the previous movement direction.  A `none` previous direction
with a pair still to label models the Python `AttributeError` raised by
`None.turn_left()`. -/
def construct_sequences_aux : Option Direction → List Step → Except Err (List Step)
  | _, [] => .ok []
  | _, [_] => .ok []
  | none, _ :: _ :: _ => .error .attributeError
  | some prev, (pos_x, pos_y, _) :: next :: rest => do
    let md := movement_direction pos_x pos_y next.1 next.2.1
    let label :=
      if md = some prev then "F"
      else if md = some prev.turn_left then "LF"
      else if md = some prev.turn_right then "RF"
      else "B"
    let tail ← construct_sequences_aux md (next :: rest)
    .ok ((pos_x, pos_y, label) :: tail)

/-- `maze_runner._construct_sequences`: label each entry of the optimised path
with the move toward its successor, relative to the previous instruction's
direction (seeded with `starting_direction`), and drop the final (goal)
entry. -/
def construct_sequences (optimised : List Step) (starting_direction : Direction) :
    Except Err (List Step) :=
  construct_sequences_aux (some starting_direction) optimised

/-- Modelled from the spec: `get_position_or_default` is called by
`shortest_path` but is missing from the sources (only the call site exists).
Per the spec, the starting position is the supplied pair when present and
defaults to the maze's bottom-left corner `(0, 0)` otherwise (the call site
passes the corner `(Direction.WEST, Direction.SOUTH)` as the default). -/
def get_position_or_default (_maze : Maze) (starting : Option (Int × Int)) :
    Int × Int :=
  match starting with
  | some p => p
  | none => (0, 0)

/-- `maze_runner.shortest_path` (with `scribe = False`, so no file output):
create a runner at the starting position facing NORTH, explore, link the
trace, optimise it, and attach instruction labels seeded with
`Direction.NORTH`. -/
def shortest_path (fuel : Nat) (maze : Maze)
    (starting goal : Option (Int × Int)) : Except Err (List Step) := do
  let (starting_x, starting_y) := get_position_or_default maze starting
  let r := create_runner starting_x starting_y .NORTH
  let path ← explore fuel r maze goal
  let linked ← link_list path
  construct_sequences (optimise_path linked) .NORTH

/-- The boundary cell written by `maze.create_maze` at `(i, j)`. -/
def boundary_cell (width height i j : Nat) : Cell :=
  { north := decide (j = height - 1)
    east := decide (i = width - 1)
    south := decide (j = 0)
    west := decide (i = 0) }

/-- `maze.create_maze`: reject non-positive dimensions, then build the grid of
cells carrying exactly the four boundary walls. -/
def create_maze (width height : Nat) : Except Err Maze :=
  if width = 0 ∨ height = 0 then .error .invalidArgument
  else
    .ok ((List.range width).map (fun i =>
      (List.range height).map (fun j => boundary_cell width height i j)))

/-- Rewrite the cell `maze[x][y]` in place (a no-op out of range; the callers
validate the coordinates first). -/
def modify_cell (maze : Maze) (x y : Nat) (f : Cell → Cell) : Maze :=
  match maze.get? x with
  | none => maze
  | some col =>
    match col.get? y with
    | none => maze
    | some c => maze.set x (col.set y (f c))

/-- `maze.add_horizontal_wall`: validate the coordinates, then set the south
wall of `maze[x][line]` and the north wall of `maze[x][line-1]`.  A line above
the maze would hit the Python `IndexError`. -/
def add_horizontal_wall (maze : Maze) (x_coordinate horizontal_line : Int) :
    Except Err Maze :=
  if x_coordinate < 0 ∨ horizontal_line < 0 then .error .invalidArgument
  else do
    let (width, height) ← get_dimensions maze
    if x_coordinate ≥ (width : Int) then .error .invalidArgument
    else if horizontal_line = 0 ∨ horizontal_line = (height : Int) then
      .error .invalidArgument
    else if horizontal_line > (height : Int) then .error .indexError
    else
      .ok (modify_cell
        (modify_cell maze x_coordinate.toNat horizontal_line.toNat
          (fun c => { c with south := true }))
        x_coordinate.toNat (horizontal_line.toNat - 1)
        (fun c => { c with north := true }))

/-- Modelled from the spec: the body of `maze.add_vertical_wall` is missing
from the sources (it is the single statement `pass`).  Per the spec's
wall-insertion interface and the repository's own unit test
(`test_add_vertical_wall_assignment`), adding a vertical wall at
`(y_coordinate, vertical_line)` sets the west wall of
`maze[vertical_line][y_coordinate]` and the east wall of
`maze[vertical_line - 1][y_coordinate]`, with validation mirroring
`add_horizontal_wall`. -/
def add_vertical_wall (maze : Maze) (y_coordinate vertical_line : Int) :
    Except Err Maze :=
  if y_coordinate < 0 ∨ vertical_line < 0 then .error .invalidArgument
  else do
    let (width, height) ← get_dimensions maze
    if y_coordinate ≥ (height : Int) then .error .invalidArgument
    else if vertical_line = 0 ∨ vertical_line = (width : Int) then
      .error .invalidArgument
    else if vertical_line > (width : Int) then .error .indexError
    else
      .ok (modify_cell
        (modify_cell maze vertical_line.toNat y_coordinate.toNat
          (fun c => { c with west := true }))
        (vertical_line.toNat - 1) y_coordinate.toNat
        (fun c => { c with east := true }))

/-- Reduction of the `Except` monad's bind on a success value. -/
theorem bind_ok_eq {α β : Type} (a : α) (f : α → Except Err β) :
    (Except.ok a >>= f) = f a :=
  rfl

/-- Reduction of the `Except` monad's bind on an error value. -/
theorem bind_error_eq {α β : Type} (e : Err) (f : α → Except Err β) :
    ((Except.error e : Except Err α) >>= f) = Except.error e :=
  rfl

/-- The `(x, y)` position component of a trace entry. -/
def pos_of (s : Step) : Int × Int :=
  (s.1, s.2.1)

/-- A trace entry with its action label cleared, as `_optimise_path` emits
them (`"to be filled in later"`). -/
def blank_label (s : Step) : Step :=
  (s.1, s.2.1, "")

/-- The movement-vector mapping the spec states for the four orientations
(North:+y, East:+x, South:−y, West:−x), transcribed from the spec's words so
the behaviour of the source's `forward`/`backward` can be compared with it. -/
def spec_unit_vector : Direction → Int × Int
  | .NORTH => (0, 1)
  | .EAST => (1, 0)
  | .SOUTH => (0, -1)
  | .WEST => (-1, 0)

/-- Claim C8: for every Orientation `o`, `o.turn_left().turn_right() == o` and
`o.turn_right().turn_left() == o`, and four successive `turn_right` calls
return `o` unchanged. -/
theorem C8_turn_ring (o : Direction) :
    o.turn_left.turn_right = o ∧ o.turn_right.turn_left = o ∧
    o.turn_right.turn_right.turn_right.turn_right = o := by
  cases o <;> exact ⟨rfl, rfl, rfl⟩

/-- Claim C9: `turn` leaves the position unchanged, and `forward`/`backward`
translate the position by the unit vector of the current orientation
(respectively its negation) while leaving the orientation unchanged. -/
theorem C9_movement_frame :
    (∀ (r : Runner) (d : Turn), ((turn r d).x, (turn r d).y) = (r.x, r.y)) ∧
    (∀ r : Runner, (forward r).orientation = r.orientation ∧
      ((forward r).x, (forward r).y)
        = (r.x + (spec_unit_vector r.orientation).1,
           r.y + (spec_unit_vector r.orientation).2)) ∧
    (∀ r : Runner, (backward r).orientation = r.orientation ∧
      ((backward r).x, (backward r).y)
        = (r.x - (spec_unit_vector r.orientation).1,
           r.y - (spec_unit_vector r.orientation).2)) := by
  refine ⟨fun r d => ?_, fun r => ?_, fun r => ?_⟩
  · cases d <;> rfl
  · obtain ⟨x, y, o⟩ := r
    cases o <;> simp [forward, spec_unit_vector, Int.sub_eq_add_neg]
  · obtain ⟨x, y, o⟩ := r
    cases o <;> simp [backward, spec_unit_vector, sub_neg_eq_add]

/-- Claim C2: with the runner inside the maze, one exploration step tests the
sensed flags in the order left, forward, right, turning and moving as the
first open side dictates, and otherwise moves backward (orientation
unchanged) emitting `"B"`. -/
theorem C2_move_priority (r : Runner) (maze : Maze) (l f rt : Bool)
    (h : sense_walls r maze = .ok (l, f, rt)) :
    move r maze =
      .ok (if l = false then (forward (turn r .LEFT), "LF")
        else if f = false then (forward r, "F")
        else if rt = false then (forward (turn r .RIGHT), "RF")
        else (backward r, "B")) ∧
    (backward r).orientation = r.orientation := by
  constructor
  · simp only [move, h]
    cases l <;> cases f <;> cases rt <;> rfl
  · cases hr : r.orientation <;> simp [backward, hr]

/-- Witness for C2: in the fully walled 1×1 maze the runner senses
(true, true, true) and the step is a backward move labelled `"B"`. -/
theorem C2_move_priority_witness :
    sense_walls (Runner.mk 0 0 .NORTH) [[Cell.mk true true true true]]
      = .ok (true, true, true) ∧
    move (Runner.mk 0 0 .NORTH) [[Cell.mk true true true true]]
      = .ok (backward (Runner.mk 0 0 .NORTH), "B") := by
  refine ⟨rfl, ?_⟩
  have h := (C2_move_priority (Runner.mk 0 0 .NORTH) [[Cell.mk true true true true]]
    true true true rfl).1
  simpa using h

/-- Claim C7: for a runner on a valid cell, `sense_walls` returns that cell's
flags in the order (left, forward, right) obtained by rotating the
orientation; for a runner outside the maze it fails with the out-of-bounds
condition. -/
theorem C7_sense_walls (r : Runner) (maze : Maze) :
    (∀ cell : Cell, get_walls maze r.x r.y = .ok cell →
      sense_walls r maze =
        .ok (cell.get r.orientation.turn_left, cell.get r.orientation,
          cell.get r.orientation.turn_right)) ∧
    (∀ w h : Nat, get_dimensions maze = .ok (w, h) →
      (r.x < 0 ∨ r.y < 0 ∨ r.x ≥ (w : Int) ∨ r.y ≥ (h : Int)) →
      sense_walls r maze = .error .outOfBounds) := by
  constructor
  · intro cell hc
    simp [sense_walls, hc, bind_ok_eq]
  · intro w h hd hout
    by_cases hneg : r.x < 0 ∨ r.y < 0
    · simp [sense_walls, get_walls, hneg, bind_error_eq]
    · have hge : r.x ≥ (w : Int) ∨ r.y ≥ (h : Int) := by
        rcases hout with h1 | h1 | h1 | h1
        · exact absurd (Or.inl h1) hneg
        · exact absurd (Or.inr h1) hneg
        · exact Or.inl h1
        · exact Or.inr h1
      simp [sense_walls, get_walls, hneg, hd, hge, bind_ok_eq, bind_error_eq]

/-- Witness for C7: in a 1×1 maze with walls only on north and south, the
runner facing EAST senses (north, east, south) = (true, false, true); a
runner at x = 5 is rejected as out of bounds. -/
theorem C7_sense_walls_witness :
    sense_walls (Runner.mk 0 0 .EAST) [[Cell.mk true false true false]]
      = .ok (true, false, true) ∧
    sense_walls (Runner.mk 5 0 .EAST) [[Cell.mk true false true false]]
      = .error .outOfBounds := by
  constructor
  · have h := (C7_sense_walls (Runner.mk 0 0 .EAST)
      [[Cell.mk true false true false]]).1 (Cell.mk true false true false) rfl
    simpa using h
  · exact (C7_sense_walls (Runner.mk 5 0 .EAST) [[Cell.mk true false true false]]).2
      1 1 rfl (by norm_num)

/-- Claim C6: with the goal omitted, `explore` targets `(width-1, height-1)`;
an explicitly supplied goal outside the maze makes `explore` fail with the
invalid-goal condition before any exploration step. -/
theorem C6_goal_resolution :
    (∀ (fuel : Nat) (r : Runner) (maze : Maze) (w h : Nat),
      get_dimensions maze = .ok (w, h) →
      explore fuel r maze none
        = explore_loop maze ((w : Int) - 1) ((h : Int) - 1) fuel r) ∧
    (∀ (fuel : Nat) (r : Runner) (maze : Maze) (w h : Nat) (gx gy : Int),
      get_dimensions maze = .ok (w, h) →
      (gx ≥ (w : Int) ∨ gy ≥ (h : Int) ∨ gx < 0 ∨ gy < 0) →
      explore fuel r maze (some (gx, gy)) = .error .invalidGoal) := by
  constructor
  · intro fuel r maze w h hd
    simp [explore, hd, bind_ok_eq]
  · intro fuel r maze w h gx gy hd hout
    simp [explore, hd, hout, bind_ok_eq, bind_error_eq]

/-- Witness for C6: on a 1×1 maze the omitted goal resolves to `(0, 0)` and
the explicit goal `(5, 5)` is rejected. -/
theorem C6_goal_resolution_witness :
    explore 0 (Runner.mk 0 0 .NORTH) [[Cell.mk true true true true]] none
      = explore_loop [[Cell.mk true true true true]] ((1 : Int) - 1) ((1 : Int) - 1)
          0 (Runner.mk 0 0 .NORTH) ∧
    explore 0 (Runner.mk 0 0 .NORTH) [[Cell.mk true true true true]] (some (5, 5))
      = .error .invalidGoal := by
  constructor
  · have h := C6_goal_resolution.1 0 (Runner.mk 0 0 .NORTH)
      [[Cell.mk true true true true]] 1 1 rfl
    simpa using h
  · exact C6_goal_resolution.2 0 (Runner.mk 0 0 .NORTH)
      [[Cell.mk true true true true]] 1 1 5 5 rfl (by norm_num)

/-- Claim C10: a runner already standing on the (valid) goal position makes
`explore` return the empty trace without any movement step, and the empty
trace is exactly the input on which the compaction stage's `link_list`
fails. -/
theorem C10_empty_trace :
    (∀ (fuel : Nat) (r : Runner) (maze : Maze) (w h : Nat) (gx gy : Int),
      get_dimensions maze = .ok (w, h) →
      ¬(gx ≥ (w : Int) ∨ gy ≥ (h : Int) ∨ gx < 0 ∨ gy < 0) →
      r.x = gx → r.y = gy →
      explore fuel r maze (some (gx, gy)) = .ok []) ∧
    (∀ (fuel : Nat) (r : Runner) (maze : Maze) (w h : Nat),
      get_dimensions maze = .ok (w, h) →
      r.x = (w : Int) - 1 → r.y = (h : Int) - 1 →
      explore fuel r maze none = .ok []) ∧
    link_list [] = .error .indexError := by
  refine ⟨?_, ?_, rfl⟩
  · intro fuel r maze w h gx gy hd hok hx hy
    cases fuel <;>
      simp [explore, hd, hok, explore_loop, in_goal, hx, hy, bind_ok_eq, bind_error_eq]
  · intro fuel r maze w h hd hx hy
    cases fuel <;>
      simp [explore, hd, explore_loop, in_goal, hx, hy, bind_ok_eq, bind_error_eq]

/-- Witness for C10: on the 1×1 maze a runner at `(0, 0)` returns the empty
trace, both for the explicit goal `(0, 0)` and for the defaulted goal. -/
theorem C10_empty_trace_witness :
    explore 3 (Runner.mk 0 0 .NORTH) [[Cell.mk true true true true]] (some (0, 0))
      = .ok [] ∧
    explore 3 (Runner.mk 0 0 .NORTH) [[Cell.mk true true true true]] none
      = .ok [] := by
  constructor
  · exact C10_empty_trace.1 3 (Runner.mk 0 0 .NORTH) [[Cell.mk true true true true]]
      1 1 0 0 rfl (by norm_num) rfl rfl
  · exact C10_empty_trace.2.1 3 (Runner.mk 0 0 .NORTH) [[Cell.mk true true true true]]
      1 1 rfl (by norm_num) (by norm_num)

/-- Claim C1: `shortest_path` is exactly the composition of the Explorer, the
Path Compactor (`link_list` then `_optimise_path`) and the Instruction
Synthesizer seeded with the fixed initial heading NORTH, on a runner created
at the supplied start (default bottom-left `(0, 0)`) facing NORTH. -/
theorem C1_shortest_path_composes :
    (∀ (fuel : Nat) (maze : Maze) (goal : Option (Int × Int)),
      shortest_path fuel maze none goal =
        (explore fuel (create_runner 0 0 .NORTH) maze goal).bind (fun path =>
          (link_list path).bind (fun linked =>
            construct_sequences (optimise_path linked) .NORTH))) ∧
    (∀ (fuel : Nat) (maze : Maze) (sx sy : Int) (goal : Option (Int × Int)),
      shortest_path fuel maze (some (sx, sy)) goal =
        (explore fuel (create_runner sx sy .NORTH) maze goal).bind (fun path =>
          (link_list path).bind (fun linked =>
            construct_sequences (optimise_path linked) .NORTH))) :=
  ⟨fun _ _ _ => rfl, fun _ _ _ _ _ => rfl⟩

/-- Length of the linked trace. -/
theorem linked_entries_length (l : List Step) :
    (linked_entries l).length = l.length := by
  simp [linked_entries]

/-- Entry `k` of the linked trace: the `k`-th trace entry paired with the link
`k + 1`, or `-1` at the last index. -/
theorem linked_entries_get? (l : List Step) (k : Nat) :
    (linked_entries l).get? k
      = (l.get? k).map
          (fun s => (s, if k = l.length - 1 then (-1 : Int) else (k : Int) + 1)) := by
  simp only [linked_entries, List.get?_map, List.get?_enum]
  cases l.get? k <;> rfl

/-- The splice loop leaves the linked list untouched as long as every index it
still has to visit holds a position that is neither in the `seen` map nor
shared with another pending index. -/
theorem splice_fresh_eq (lp : List (Step × Int)) :
    ∀ (idxs : List Nat) (seen : List ((Int × Int) × Nat)),
      idxs.Nodup →
      (∀ i ∈ idxs, ∀ e : Step × Int, lp.get? i = some e →
        seen_lookup seen (pos_of e.1) = none) →
      (∀ i ∈ idxs, ∀ j ∈ idxs, i ≠ j → ∀ e e' : Step × Int,
        lp.get? i = some e → lp.get? j = some e' → pos_of e.1 ≠ pos_of e'.1) →
      splice lp seen idxs = lp := by
  intro idxs
  induction idxs with
  | nil => intro seen _ _ _; rfl
  | cons i rest ih =>
    intro seen hnd hfresh hdist
    rw [List.nodup_cons] at hnd
    obtain ⟨hnotin, hndrest⟩ := hnd
    have hdist' : ∀ a ∈ rest, ∀ b ∈ rest, a ≠ b → ∀ e e' : Step × Int,
        lp.get? a = some e → lp.get? b = some e' → pos_of e.1 ≠ pos_of e'.1 :=
      fun a ha b hb hab => hdist a (List.mem_cons_of_mem _ ha)
        b (List.mem_cons_of_mem _ hb) hab
    cases hget : lp.get? i with
    | none =>
      simp only [splice, hget]
      exact ih seen hndrest
        (fun j hj e he => hfresh j (List.mem_cons_of_mem _ hj) e he) hdist'
    | some e =>
      obtain ⟨⟨px, py, lab⟩, nxt⟩ := e
      by_cases hnx : nxt = -1
      · simp only [splice, hget, hnx, if_pos rfl]
        exact ih seen hndrest
          (fun j hj e he => hfresh j (List.mem_cons_of_mem _ hj) e he) hdist'
      · have hlk : seen_lookup seen (px, py) = none := by
          have := hfresh i (List.mem_cons_self i rest) ((px, py, lab), nxt) hget
          simpa [pos_of] using this
        simp only [splice, hget, if_neg hnx, hlk]
        refine ih (((px, py), i) :: seen) hndrest ?_ hdist'
        intro j hj e' he'
        have hji : j ≠ i := fun hcontra => hnotin (hcontra ▸ hj)
        have hne : pos_of e'.1 ≠ (px, py) := by
          have := hdist j (List.mem_cons_of_mem _ hj) i (List.mem_cons_self i rest)
            hji e' ((px, py, lab), nxt) he' hget
          simpa [pos_of] using this
        have hfr := hfresh j (List.mem_cons_of_mem _ hj) e' he'
        have hne' : ¬ ((px, py) = pos_of e'.1) := fun hcontra => hne hcontra.symm
        simp [seen_lookup, hne', hfr]

/-- On a trace whose positions are pairwise distinct, the splice loop visits
only fresh positions and therefore rewrites nothing. -/
theorem splice_linked_of_nodup (l : List Step) (h : (l.map pos_of).Nodup) :
    splice (linked_entries l) [] (List.range (linked_entries l).length)
      = linked_entries l := by
  apply splice_fresh_eq
  · exact List.nodup_range _
  · intro i _ e _
    rfl
  · intro i _ j _ hij e e' he he'
    rw [linked_entries_get?] at he he'
    cases hli : l.get? i with
    | none => rw [hli] at he; exact absurd he (by simp)
    | some s =>
      cases hlj : l.get? j with
      | none => rw [hlj] at he'; exact absurd he' (by simp)
      | some s' =>
        rw [hli, Option.map_some'] at he
        rw [hlj, Option.map_some'] at he'
        obtain rfl : e = (s, _) := (Option.some_inj.mp he).symm
        obtain rfl : e' = (s', _) := (Option.some_inj.mp he').symm
        intro hpp
        have hi' : i < l.length := by
          by_contra hge
          rw [List.get?_eq_none.mpr (by omega)] at hli
          exact absurd hli (by simp)
        have hmi : (l.map pos_of).get? i = some (pos_of s) := by
          rw [List.get?_map, hli]
          rfl
        have hmj : (l.map pos_of).get? j = some (pos_of s') := by
          rw [List.get?_map, hlj]
          rfl
        apply hij
        have hleni : i < (l.map pos_of).length := by simpa using hi'
        apply List.getElem?_inj hleni h
        rw [← List.get?_eq_getElem?, ← List.get?_eq_getElem?, hmi, hmj]
        simpa using hpp

/-- Unfolding of one successful walk step. -/
theorem walk_succ_some (lp : List (Step × Int)) (fuel : Nat) (idx : Int)
    (h0 : ¬ idx < 0) (sx sy : Int) (slab : String) (nxt : Int)
    (h : lp.get? idx.toNat = some ((sx, sy, slab), nxt)) :
    walk lp (fuel + 1) idx = (sx, sy, "") :: walk lp fuel nxt := by
  rw [walk, if_neg h0, h]

/-- Walking the untouched linked trace from index `k` collects the remaining
entries in order, with the labels blanked. -/
theorem walk_linked (l : List Step) :
    ∀ (fuel k : Nat), k < l.length → l.length - k ≤ fuel →
      walk (linked_entries l) fuel (k : Int) = (l.drop k).map blank_label := by
  intro fuel
  induction fuel with
  | zero =>
    intro k hk hle
    exfalso
    omega
  | succ fuel ih =>
    intro k hk hle
    cases hlk : l.get? k with
    | none => exact absurd (List.get?_eq_none.mp hlk) (by omega)
    | some s =>
      obtain ⟨sx, sy, slab⟩ := s
      have hgetk : l[k] = (sx, sy, slab) := by
        have h1 : l[k]? = some l[k] := List.getElem?_eq_getElem hk
        have h2 : l[k]? = some (sx, sy, slab) := by
          rw [← List.get?_eq_getElem?]
          exact hlk
        exact Option.some_inj.mp (h1.symm.trans h2)
      have hkt : ((k : Int)).toNat = k := Int.toNat_natCast k
      have hk0 : ¬ ((k : Int) < 0) := by omega
      by_cases hlast : k = l.length - 1
      · have hget : (linked_entries l).get? ((k : Int)).toNat
            = some ((sx, sy, slab), -1) := by
          rw [hkt, linked_entries_get?, hlk, Option.map_some', if_pos hlast]
        rw [walk_succ_some _ _ _ hk0 _ _ _ _ hget]
        have hw : walk (linked_entries l) fuel (-1) = [] := by
          cases fuel <;> simp [walk]
        have hkk : k + 1 = l.length := by omega
        rw [hw, List.drop_eq_getElem_cons hk, hkk, List.drop_length, hgetk]
        rfl
      · have hget : (linked_entries l).get? ((k : Int)).toNat
            = some ((sx, sy, slab), ((k + 1 : Nat) : Int)) := by
          rw [hkt, linked_entries_get?, hlk, Option.map_some', if_neg hlast]
          norm_cast
        rw [walk_succ_some _ _ _ hk0 _ _ _ _ hget]
        rw [ih (k + 1) (by omega) (by omega)]
        rw [List.drop_eq_getElem_cons hk, hgetk]
        rfl

/-- `_optimise_path` on the linked form of a loop-free trace returns the trace
itself with the labels blanked. -/
theorem optimise_linked_of_nodup (l : List Step) (hne : l ≠ [])
    (h : (l.map pos_of).Nodup) :
    optimise_path (linked_entries l) = l.map blank_label := by
  unfold optimise_path
  rw [splice_linked_of_nodup l h, linked_entries_length]
  have hlen : 0 < l.length := List.length_pos.mpr hne
  have hwalk := walk_linked l (l.length + 1) 0 hlen (by omega)
  simpa using hwalk

/-- Claim C4 (amended): compacting a loop-free trace of length at least 1
preserves the sequence of positions in order; the only change is that every
action label is reset to the empty string, as `_optimise_path` documents. -/
theorem C4_compact_loop_free (t : List Step) (hne : t ≠ [])
    (hnd : (t.map pos_of).Nodup) :
    compact_trace t = .ok (t.map blank_label) ∧
    (t.map blank_label).map pos_of = t.map pos_of := by
  constructor
  · match t, hne with
    | a :: t', _ =>
      show (link_list (a :: t')).map optimise_path = _
      rw [link_list]
      show Except.ok (optimise_path (linked_entries (a :: t'))) = _
      rw [optimise_linked_of_nodup (a :: t') (by simp) hnd]
  · rw [List.map_map, show pos_of ∘ blank_label = pos_of from funext fun s => rfl]

/-- Counterexample to C4 as stated: on the loop-free one-entry trace
`[(0, 0, "F")]` the Path Compactor does not return the input sequence
unchanged (it blanks the action label). -/
theorem C4_counterexample :
    ¬ (compact_trace [((0 : Int), (0 : Int), "F")]
        = .ok [((0 : Int), (0 : Int), "F")]) := by
  intro hc
  rw [show compact_trace [((0 : Int), (0 : Int), "F")]
      = Except.ok [((0 : Int), (0 : Int), "")] from rfl] at hc
  injection hc with hl
  exact absurd hl (by decide)

/-- Witness for C4: a concrete loop-free two-entry trace, its hypotheses
discharged by computation. -/
theorem C4_compact_loop_free_witness :
    ([((0 : Int), (0 : Int), "RF"), (1, 0, "F")] : List Step) ≠ [] ∧
    (([((0 : Int), (0 : Int), "RF"), (1, 0, "F")] : List Step).map pos_of).Nodup ∧
    compact_trace [((0 : Int), (0 : Int), "RF"), (1, 0, "F")]
      = .ok (([((0 : Int), (0 : Int), "RF"), (1, 0, "F")] : List Step).map blank_label) := by
  refine ⟨by decide, by decide, ?_⟩
  exact (C4_compact_loop_free [((0 : Int), (0 : Int), "RF"), (1, 0, "F")]
    (by decide) (by decide)).1

/-- The 3×3 maze on which the splice loop of `_optimise_path` goes wrong: the
centre cell `(1, 1)` is an open junction, the cells west, south and east of it
are dead ends, and the goal `(1, 2)` lies to its north.  Column-major layout,
cells written `⟨north, east, south, west⟩`. -/
def c3_maze : Maze :=
  [[⟨true, true, true, true⟩, ⟨true, false, true, true⟩, ⟨true, true, true, true⟩],
   [⟨false, true, true, true⟩, ⟨false, false, false, false⟩, ⟨true, true, false, true⟩],
   [⟨true, true, true, true⟩, ⟨true, true, true, false⟩, ⟨true, true, true, true⟩]]

/-- The raw trace `explore` produces on `c3_maze` from `(1, 0)` facing NORTH
with goal `(1, 2)`: the junction `(1, 1)` is entered four times. -/
def c3_trace : List Step :=
  [(1, 1, "F"), (0, 1, "LF"), (1, 1, "B"), (1, 0, "LF"),
   (1, 1, "B"), (2, 1, "LF"), (1, 1, "B"), (1, 2, "LF")]

/-- Claim C3 fails on the code: `explore` produces `c3_trace` on `c3_maze`,
and the Path Compactor maps that trace to an optimised path in which the
position `(1, 1)` occurs twice — the splice from the first occurrence of
`(1, 1)` jumps into the middle of a later detour instead of over it. -/
theorem C3_compactor_emits_duplicate :
    explore 20 (create_runner 1 0 .NORTH) c3_maze (some (1, 2)) = .ok c3_trace ∧
    compact_trace c3_trace
      = .ok [(1, 1, ""), (1, 0, ""), (1, 1, ""), (1, 2, "")] ∧
    ¬ (([(1, 1, ""), (1, 0, ""), (1, 1, ""), (1, 2, "")] : List Step).map pos_of).Nodup := by
  refine ⟨rfl, rfl, by decide⟩

/-- The 11×5 maze of the repository's own `test_shortest_path`: `create_maze`
plus a horizontal wall at `(x=0, line=1)` and a vertical wall at
`(y=1, line=1)` (the latter via the modelled `add_vertical_wall`). -/
def c5_maze : Maze :=
  match (do
    let m1 ← create_maze 11 5
    let m2 ← add_horizontal_wall m1 0 1
    add_vertical_wall m2 1 1 : Except Err Maze) with
  | .ok m => m
  | .error _ => []

/-- The runner states `explore` passes through on `c5_maze` from the default
start: after six steps it enters the four-state pirouette
`(0,2,S) → (1,2,E) → (1,3,N) → (0,3,W) → (0,2,S)` in the open area, with the
default goal `(10, 4)` never reached. -/
def c5_states : List Runner :=
  [⟨0, 0, .NORTH⟩, ⟨1, 0, .EAST⟩, ⟨1, 1, .NORTH⟩, ⟨1, 2, .NORTH⟩,
   ⟨0, 2, .WEST⟩, ⟨0, 1, .SOUTH⟩, ⟨0, 2, .SOUTH⟩, ⟨1, 2, .EAST⟩,
   ⟨1, 3, .NORTH⟩, ⟨0, 3, .WEST⟩]

/-- One unrolling of the exploration loop on `c5_maze` toward the default
goal. -/
theorem c5_step (n : Nat) (r r2 : Runner) (label : String)
    (hg : in_goal r 10 4 = false)
    (hm : move r c5_maze = .ok (r2, label))
    (hrec : explore_loop c5_maze 10 4 n r2 = .error .outOfFuel) :
    explore_loop c5_maze 10 4 (n + 1) r = .error .outOfFuel := by
  simp [explore_loop, hg, hm, hrec, bind_ok_eq, bind_error_eq]

/-- From any of the ten states the exploration loop on `c5_maze` exhausts any
amount of fuel: the step relation maps the set into itself and never meets the
goal. -/
theorem c5_loop_diverges :
    ∀ n : Nat, ∀ r ∈ c5_states, explore_loop c5_maze 10 4 n r = .error .outOfFuel := by
  intro n
  induction n with
  | zero =>
    intro r hr
    fin_cases hr <;> rfl
  | succ n ih =>
    intro r hr
    fin_cases hr
    · exact c5_step n _ ⟨1, 0, .EAST⟩ "RF" rfl rfl (ih _ (by decide))
    · exact c5_step n _ ⟨1, 1, .NORTH⟩ "LF" rfl rfl (ih _ (by decide))
    · exact c5_step n _ ⟨1, 2, .NORTH⟩ "F" rfl rfl (ih _ (by decide))
    · exact c5_step n _ ⟨0, 2, .WEST⟩ "LF" rfl rfl (ih _ (by decide))
    · exact c5_step n _ ⟨0, 1, .SOUTH⟩ "LF" rfl rfl (ih _ (by decide))
    · exact c5_step n _ ⟨0, 2, .SOUTH⟩ "B" rfl rfl (ih _ (by decide))
    · exact c5_step n _ ⟨1, 2, .EAST⟩ "LF" rfl rfl (ih _ (by decide))
    · exact c5_step n _ ⟨1, 3, .NORTH⟩ "LF" rfl rfl (ih _ (by decide))
    · exact c5_step n _ ⟨0, 3, .WEST⟩ "LF" rfl rfl (ih _ (by decide))
    · exact c5_step n _ ⟨0, 2, .SOUTH⟩ "LF" rfl rfl (ih _ (by decide))

/-- Claim C5 fails on the code: on the very maze of the repository's
`test_shortest_path`, `shortest_path` with default start and goal exhausts
every fuel bound — the wall-following runner circles the open cells
`(0,2), (1,2), (1,3), (0,3)` forever — so no Final Path with first element
`(0,0,"RF")` and last element `(9,4,"F")` is ever returned. -/
theorem C5_test_maze_diverges :
    (do
      let m1 ← create_maze 11 5
      let m2 ← add_horizontal_wall m1 0 1
      add_vertical_wall m2 1 1 : Except Err Maze) = Except.ok c5_maze ∧
    ∀ fuel : Nat, shortest_path fuel c5_maze none none = .error .outOfFuel := by
  refine ⟨rfl, fun fuel => ?_⟩
  have hloop := c5_loop_diverges fuel (create_runner 0 0 .NORTH) (by decide)
  have hdim : get_dimensions c5_maze = .ok (11, 5) := rfl
  have hexp : explore fuel (create_runner 0 0 .NORTH) c5_maze none
      = .error .outOfFuel := by
    have h11 : ((11 : Nat) : Int) - 1 = 10 := by norm_num
    have h5 : ((5 : Nat) : Int) - 1 = 4 := by norm_num
    simp only [explore, hdim, bind_ok_eq, h11, h5]
    exact hloop
  simp [shortest_path, get_position_or_default, hexp, bind_error_eq]

end ECSMazeRunner
